import Mathlib

/-!
Verification of the news-summarizer repository's cache, cost-tracking and
article-store layers, as a shallow embedding in Lean.

Embedding conventions:
* Python dicts keyed by URL strings become association lists (`Dict`);
  insertion replaces an existing binding in place, as Python assignment does.
* The JSON backing file of `cache.py` is modelled as `Option (Dict α)`:
  `some m` is a file holding the well-formed serialized mapping `m`, and
  `none` stands for every failure mode `_load` swallows (missing file,
  unreadable file, content that fails to parse), since all of them are
  handled identically by `except ... return {}`.
* Python floats are modelled as rationals; every concrete value the spec
  mentions (75.0, 50.0, 0.0) is exactly representable in binary floating
  point, so the rational model agrees with the float computation there.
* Wall-clock timestamps (`datetime.now`) enter as explicit `now` arguments.
-/

/-- Association-list model of a Python `dict` with string keys. -/
def Dict (α : Type) : Type := List (String × α)

/-- The empty dict, `{}` in Python. -/
def Dict.empty {α : Type} : Dict α := []

/-- Key lookup, `d[k]` / `k in d` in Python: the first binding for `k`. -/
def Dict.lookup {α : Type} : Dict α → String → Option α
  | [], _ => none
  | (k', v) :: rest, k => if k' = k then some v else Dict.lookup rest k

/-- Key assignment `d[k] = v`: replaces an existing binding in place,
otherwise appends a new one (Python dicts keep insertion order). -/
def Dict.insert {α : Type} : Dict α → String → α → Dict α
  | [], k, v => [(k, v)]
  | (k', v') :: rest, k, v =>
      if k' = k then (k, v) :: rest else (k', v') :: Dict.insert rest k v

theorem Dict.lookup_insert_self {α : Type} (d : Dict α) (k : String) (v : α) :
    (d.insert k v).lookup k = some v := by
  induction d with
  | nil => simp [Dict.insert, Dict.lookup]
  | cons hd tl ih =>
      obtain ⟨k', v'⟩ := hd
      by_cases h : k' = k
      · simp [Dict.insert, Dict.lookup, h]
      · simp [Dict.insert, Dict.lookup, h, ih]

theorem Dict.lookup_insert_ne {α : Type} (d : Dict α) (k k' : String) (v : α)
    (h : k ≠ k') : (d.insert k v).lookup k' = d.lookup k' := by
  induction d with
  | nil => simp [Dict.insert, Dict.lookup, h]
  | cons hd tl ih =>
      obtain ⟨k₀, v₀⟩ := hd
      by_cases h₀ : k₀ = k
      · subst h₀
        simp [Dict.insert, Dict.lookup, h]
      · simp [Dict.insert, Dict.lookup, h₀, ih]

/-- Python `CacheStats` (src/cache.py lines 7-20): hit/miss counters. -/
structure CacheStats where
  hits : Nat
  misses : Nat
deriving DecidableEq, Repr

/-- Python `CacheStats.hit_rate` (src/cache.py lines 14-20): hit rate as a
percentage, 0.0 when no lookups have occurred. Floats are modelled as ℚ. -/
def CacheStats.hit_rate (s : CacheStats) : ℚ :=
  let total := s.hits + s.misses
  if total = 0 then 0 else ((s.hits : ℚ) / (total : ℚ)) * 100

/-- State of a Python `ResponseCache` instance (src/cache.py lines 23-62)
together with the backing file it reads and writes. `file = none` models a
missing, unreadable or corrupt `response_cache.json`; `file = some m` models
a file whose JSON content parses to the mapping `m`. -/
structure ResponseCache (α : Type) where
  cache : Dict α
  stats : CacheStats
  file : Option (Dict α)

/-- Python `ResponseCache._load` (src/cache.py lines 32-38): parse the
backing file, returning the empty dict on any of the caught failures. -/
def ResponseCache.load {α : Type} (file : Option (Dict α)) : Dict α :=
  match file with
  | some m => m
  | none => Dict.empty

/-- Python `ResponseCache.__init__` (src/cache.py lines 26-30): fresh stats
and a cache loaded from the backing file; construction never writes. -/
def ResponseCache.init {α : Type} (file : Option (Dict α)) : ResponseCache α :=
  { cache := ResponseCache.load file, stats := ⟨0, 0⟩, file := file }

/-- Python `ResponseCache.get` (src/cache.py lines 46-52): returns the
cached value and bumps `hits`, or returns `None` and bumps `misses`. -/
def ResponseCache.get {α : Type} (c : ResponseCache α) (url : String) :
    Option α × ResponseCache α :=
  match c.cache.lookup url with
  | some v =>
      (some v, { c with stats := { c.stats with hits := c.stats.hits + 1 } })
  | none =>
      (none, { c with stats := { c.stats with misses := c.stats.misses + 1 } })

/-- Python `ResponseCache.set` (src/cache.py lines 54-57): store under the
URL and persist the whole cache to the backing file (`_save`). -/
def ResponseCache.set {α : Type} (c : ResponseCache α) (url : String) (result : α) :
    ResponseCache α :=
  let cache' := c.cache.insert url result
  { c with cache := cache', file := some cache' }

/-- Python `ResponseCache.clear` (src/cache.py lines 59-62): empty the
in-memory map and persist the empty state. -/
def ResponseCache.clear {α : Type} (c : ResponseCache α) : ResponseCache α :=
  { c with cache := Dict.empty, file := some Dict.empty }

/-- One observable operation on a `ResponseCache` instance. -/
inductive CacheOp (α : Type) where
  | set (url : String) (result : α)
  | get (url : String)
  | clear
deriving DecidableEq

/-- Whether an operation is a `set` for the given URL. -/
def CacheOp.isSetTo {α : Type} (url : String) : CacheOp α → Bool
  | CacheOp.set u _ => u = url
  | _ => false

/-- Apply one operation to the cache state (the value a `get` returns is
dropped; only the state evolution matters here). -/
def ResponseCache.runOp {α : Type} (c : ResponseCache α) : CacheOp α → ResponseCache α
  | CacheOp.set url result => c.set url result
  | CacheOp.get url => (c.get url).2
  | CacheOp.clear => c.clear

/-- Apply a sequence of operations in order. -/
def ResponseCache.runOps {α : Type} (c : ResponseCache α) (ops : List (CacheOp α)) :
    ResponseCache α :=
  ops.foldl ResponseCache.runOp c

/-- Apply a sequence of `set` operations, as one instance would. -/
def ResponseCache.sets {α : Type} (c : ResponseCache α) (ps : List (String × α)) :
    ResponseCache α :=
  ps.foldl (fun c p => c.set p.1 p.2) c

/-- The value the last `set` for `url` in the sequence stored, if any. -/
def lastSet {α : Type} : List (String × α) → String → Option α
  | [], _ => none
  | p :: rest, url =>
      match lastSet rest url with
      | some v => some v
      | none => if p.1 = url then some p.2 else none

theorem ResponseCache.get_cache_eq {α : Type} (c : ResponseCache α) (url : String) :
    (c.get url).2.cache = c.cache := by
  unfold ResponseCache.get
  cases c.cache.lookup url <;> simp

theorem ResponseCache.get_file_eq {α : Type} (c : ResponseCache α) (url : String) :
    (c.get url).2.file = c.file := by
  unfold ResponseCache.get
  cases c.cache.lookup url <;> simp

theorem ResponseCache.runOp_lookup_none {α : Type} (c : ResponseCache α)
    (op : CacheOp α) (url : String) (hop : op.isSetTo url = false)
    (h : c.cache.lookup url = none) : (c.runOp op).cache.lookup url = none := by
  cases op with
  | set u r =>
      simp [CacheOp.isSetTo, decide_eq_false_iff_not] at hop
      simpa [ResponseCache.runOp, ResponseCache.set, Dict.lookup_insert_ne _ _ _ _ hop]
        using h
  | get u => simpa [ResponseCache.runOp, ResponseCache.get_cache_eq] using h
  | clear => simp [ResponseCache.runOp, ResponseCache.clear, Dict.empty, Dict.lookup]

theorem ResponseCache.runOps_lookup_none {α : Type} (c : ResponseCache α)
    (ops : List (CacheOp α)) (url : String)
    (hops : ∀ op ∈ ops, op.isSetTo url = false)
    (h : c.cache.lookup url = none) : (c.runOps ops).cache.lookup url = none := by
  induction ops generalizing c with
  | nil => simpa [ResponseCache.runOps] using h
  | cons op rest ih =>
      have h1 := ResponseCache.runOp_lookup_none c op url (hops op (by simp)) h
      have h2 : ∀ o ∈ rest, CacheOp.isSetTo url o = false := fun o ho => hops o (by simp [ho])
      simpa [ResponseCache.runOps] using ih (c.runOp op) h2 h1

theorem ResponseCache.sets_lookup {α : Type} (c : ResponseCache α)
    (ps : List (String × α)) (url : String) :
    (c.sets ps).cache.lookup url =
      (match lastSet ps url with
       | some v => some v
       | none => c.cache.lookup url) := by
  induction ps generalizing c with
  | nil => simp [ResponseCache.sets, lastSet]
  | cons p rest ih =>
      have step : c.sets (p :: rest) = (c.set p.1 p.2).sets rest := by
        simp [ResponseCache.sets]
      rw [step, ih]
      cases hrest : lastSet rest url with
      | some v => simp [lastSet, hrest]
      | none =>
          by_cases hp : p.1 = url
          · subst hp
            simp [lastSet, hrest, ResponseCache.set, Dict.lookup_insert_self]
          · simp [lastSet, hrest, hp, ResponseCache.set, Dict.lookup_insert_ne _ _ _ _ hp]

theorem ResponseCache.sets_file {α : Type} (c : ResponseCache α)
    (ps : List (String × α)) (hne : ps ≠ []) :
    (c.sets ps).file = some (c.sets ps).cache := by
  induction ps generalizing c with
  | nil => exact absurd rfl hne
  | cons p rest ih =>
      have step : c.sets (p :: rest) = (c.set p.1 p.2).sets rest := by
        simp [ResponseCache.sets]
      rw [step]
      cases rest with
      | nil => simp [ResponseCache.sets, ResponseCache.set]
      | cons q qs => exact ih (c.set p.1 p.2) (by simp)

theorem lastSet_ne_nil {α : Type} (ps : List (String × α)) (url : String) (v : α)
    (h : lastSet ps url = some v) : ps ≠ [] := by
  intro hnil
  subst hnil
  simp [lastSet] at h

theorem ResponseCache.init_some_cache {α : Type} (m : Dict α) :
    (ResponseCache.init (some m)).cache = m := rfl

/-- C1: for every cache state, url and result, `set url result` followed by
`get url` on the same instance returns `result` unchanged and increments
`stats.hits` by one (set itself leaves the counters untouched). -/
theorem cache_set_then_get_roundtrip {α : Type} (c : ResponseCache α)
    (url : String) (result : α) :
    ((c.set url result).get url).1 = some result ∧
    ((c.set url result).get url).2.stats.hits = c.stats.hits + 1 := by
  constructor <;>
    simp [ResponseCache.get, ResponseCache.set, Dict.lookup_insert_self]

/-- C2: for every URL absent from the loaded backing store and never stored
by a `set` in the operations run so far, `get url` returns `none` (the
embedding is total, so no exception can occur), increments `stats.misses`
by one and leaves `stats.hits` unchanged. -/
theorem cache_get_unset_url_misses {α : Type} (file0 : Option (Dict α))
    (ops : List (CacheOp α)) (url : String)
    (h0 : (ResponseCache.load file0).lookup url = none)
    (h1 : ∀ op ∈ ops, op.isSetTo url = false) :
    (((ResponseCache.init file0).runOps ops).get url).1 = none ∧
    (((ResponseCache.init file0).runOps ops).get url).2.stats.misses =
      ((ResponseCache.init file0).runOps ops).stats.misses + 1 ∧
    (((ResponseCache.init file0).runOps ops).get url).2.stats.hits =
      ((ResponseCache.init file0).runOps ops).stats.hits := by
  have hnone : ((ResponseCache.init file0).runOps ops).cache.lookup url = none :=
    ResponseCache.runOps_lookup_none _ ops url h1 (by simpa [ResponseCache.init] using h0)
  refine ⟨?_, ?_, ?_⟩ <;> simp [ResponseCache.get, hnone]

/-- Witness for C2 at a concrete input: backing store holding only
url "a", operations that set and read url "b" and clear, lookup of the
never-set url "u". -/
theorem cache_get_unset_url_misses_witness :
    (((ResponseCache.init (some [("a", 1)])).runOps
        [CacheOp.set "b" 2, CacheOp.get "b", CacheOp.clear]).get "u").1 = none ∧
    (((ResponseCache.init (some [("a", 1)])).runOps
        [CacheOp.set "b" 2, CacheOp.get "b", CacheOp.clear]).get "u").2.stats.misses =
      ((ResponseCache.init (some [("a", 1)])).runOps
        [CacheOp.set "b" 2, CacheOp.get "b", CacheOp.clear]).stats.misses + 1 ∧
    (((ResponseCache.init (some [("a", 1)])).runOps
        [CacheOp.set "b" 2, CacheOp.get "b", CacheOp.clear]).get "u").2.stats.hits =
      ((ResponseCache.init (some [("a", 1)])).runOps
        [CacheOp.set "b" 2, CacheOp.get "b", CacheOp.clear]).stats.hits :=
  cache_get_unset_url_misses (some [("a", 1)])
    [CacheOp.set "b" 2, CacheOp.get "b", CacheOp.clear] "u"
    (by decide) (by decide)

/-- C3: a backing store in any of the states `_load` swallows (missing,
unreadable, corrupt — all modelled by `none`) yields, without any failure,
an instance whose cache is empty and on which every sequence of lookups
keeps missing. -/
theorem cache_init_corrupt_store_empty {α : Type} (urls : List String) (url : String) :
    (ResponseCache.init (none : Option (Dict α))).cache = Dict.empty ∧
    ((((ResponseCache.init (none : Option (Dict α))).runOps
        (urls.map CacheOp.get)).get url).1 = none) := by
  refine ⟨rfl, ?_⟩
  have hnone : (((ResponseCache.init (none : Option (Dict α))).runOps
      (urls.map CacheOp.get)).cache.lookup url) = none := by
    refine ResponseCache.runOps_lookup_none _ _ url ?_ ?_
    · intro op hop
      obtain ⟨u, -, rfl⟩ := List.mem_map.mp hop
      rfl
    · rfl
  simp [ResponseCache.get, hnone]

/-- C4: values stored by a sequence of `set` operations on one instance are
seen by a freshly constructed instance reading the same backing file:
`get url` returns the value last set for `url`. -/
theorem cache_persists_across_instances {α : Type} (file0 : Option (Dict α))
    (ps : List (String × α)) (url : String) (v : α)
    (h : lastSet ps url = some v) :
    ((ResponseCache.init
        ((ResponseCache.init file0).sets ps).file).get url).1 = some v := by
  have hne : ps ≠ [] := lastSet_ne_nil ps url v h
  have hfile := ResponseCache.sets_file (ResponseCache.init file0) ps hne
  have hlook := ResponseCache.sets_lookup (ResponseCache.init file0) ps url
  rw [h] at hlook
  have hlook' : ((ResponseCache.init file0).sets ps).cache.lookup url = some v := by
    simpa using hlook
  rw [hfile]
  simp [ResponseCache.get, ResponseCache.init_some_cache, hlook']

/-- Witness for C4 at a concrete input: two sets to url "a"; the fresh
instance reads back the second value. -/
theorem cache_persists_across_instances_witness :
    lastSet [("a", 1), ("a", 2)] "a" = some 2 ∧
    ((ResponseCache.init
        ((ResponseCache.init (none : Option (Dict Nat))).sets
          [("a", 1), ("a", 2)]).file).get "a").1 = some 2 :=
  ⟨by decide,
   cache_persists_across_instances none [("a", 1), ("a", 2)] "a" 2 (by decide)⟩

/-- C9: `hit_rate` equals `hits / (hits + misses) * 100`, is 0 when no
lookups have occurred, and takes the spec's concrete values at (3,1),
(0,4) and (1,1); in the rational model it is always a well-defined number. -/
theorem cacheStats_hit_rate_formula :
    (∀ s : CacheStats, s.hit_rate =
      if s.hits + s.misses = 0 then 0
      else ((s.hits : ℚ) / ((s.hits : ℚ) + (s.misses : ℚ))) * 100) ∧
    CacheStats.hit_rate ⟨3, 1⟩ = 75 ∧
    CacheStats.hit_rate ⟨0, 4⟩ = 0 ∧
    CacheStats.hit_rate ⟨1, 1⟩ = 50 ∧
    CacheStats.hit_rate ⟨0, 0⟩ = 0 := by
  refine ⟨fun s => ?_, by norm_num [CacheStats.hit_rate],
    by norm_num [CacheStats.hit_rate], by norm_num [CacheStats.hit_rate],
    by norm_num [CacheStats.hit_rate]⟩
  unfold CacheStats.hit_rate
  push_cast
  rfl

/-- C10: frame conditions — `get` changes neither the cached mapping nor
the backing file and bumps exactly one of the two counters by one;
`set` and `clear` leave both counters unchanged. -/
theorem cache_frame_conditions {α : Type} (c : ResponseCache α)
    (url : String) (result : α) :
    ((c.get url).2.cache = c.cache ∧ (c.get url).2.file = c.file) ∧
    (((c.get url).2.stats.hits = c.stats.hits + 1 ∧
      (c.get url).2.stats.misses = c.stats.misses) ∨
     ((c.get url).2.stats.hits = c.stats.hits ∧
      (c.get url).2.stats.misses = c.stats.misses + 1)) ∧
    (c.set url result).stats = c.stats ∧ c.clear.stats = c.stats := by
  refine ⟨⟨ResponseCache.get_cache_eq c url, ResponseCache.get_file_eq c url⟩, ?_, rfl, rfl⟩
  unfold ResponseCache.get
  cases c.cache.lookup url with
  | some v => left; simp
  | none => right; simp

/-- Modelled from the spec: the repository file declaring `CostRecord`
(`llm_providers.py`) is not under src/ — only its tests and callers are.
Spec §3: one entry per LLM call, with provider, model, token counts and a
non-negative dollar cost. Dollars are modelled as rationals. -/
structure CostRecord where
  provider : String
  model : String
  input_tokens : Nat
  output_tokens : Nat
  cost : ℚ
deriving DecidableEq

/-- Modelled from the spec: `CostTracker` (`llm_providers.py`, not under
src/). Spec §3: an ordered append-only ledger of `CostRecord` plus a
running `total_cost`. -/
structure CostTracker where
  requests : List CostRecord
  total_cost : ℚ
deriving DecidableEq

/-- Modelled from the spec: `CostTracker.check_budget` (`llm_providers.py`,
not under src/). Spec §4.2: "fails with a budget-exceeded error when
`total_cost > daily_limit`; otherwise no-op"; the test suite
(src/test_summarizer.py lines 37-48) expects the raised error to match
"budget.*exceeded". Raising is modelled by `Except.error`. -/
def CostTracker.check_budget (t : CostTracker) (limit : ℚ) : Except String Unit :=
  if limit < t.total_cost then Except.error "Daily budget exceeded" else Except.ok ()

/-- Modelled from the spec: `CostTracker.track_request` (`llm_providers.py`,
not under src/). Spec §4.2: computes the cost from per-1K-token rates,
appends a record and adds the cost to `total_cost`. -/
def CostTracker.track_request (t : CostTracker) (provider model : String)
    (input_tokens output_tokens : Nat) (input_rate output_rate : ℚ) :
    ℚ × CostTracker :=
  let cost := (input_tokens : ℚ) / 1000 * input_rate +
    (output_tokens : ℚ) / 1000 * output_rate
  let record : CostRecord := ⟨provider, model, input_tokens, output_tokens, cost⟩
  (cost, ⟨t.requests ++ [record], t.total_cost + cost⟩)

/-- C5: `check_budget limit` fails with the budget-exceeded error exactly
when `total_cost` is strictly greater than `limit`, and is a non-failing
no-op when `total_cost` is equal to or below `limit`. -/
theorem costTracker_check_budget_iff (t : CostTracker) (limit : ℚ) :
    (t.check_budget limit = Except.error "Daily budget exceeded" ↔
      limit < t.total_cost) ∧
    (t.total_cost ≤ limit → t.check_budget limit = Except.ok ()) := by
  unfold CostTracker.check_budget
  constructor
  · by_cases h : limit < t.total_cost <;> simp [h]
  · intro h
    simp [not_lt.mpr h]

/-- Witness for C5 at concrete inputs: a ledger with total cost 15 against
limit 10 fails; total cost 1 against limit 10 passes. -/
theorem costTracker_check_budget_iff_witness :
    (CostTracker.mk [] 15).check_budget 10 = Except.error "Daily budget exceeded" ∧
    (CostTracker.mk [] 1).check_budget 10 = Except.ok () :=
  ⟨(costTracker_check_budget_iff (CostTracker.mk [] 15) 10).1.mpr (by norm_num),
   (costTracker_check_budget_iff (CostTracker.mk [] 1) 10).2 (by norm_num)⟩

/-- Modelled from the spec: the normalized article shape (`news_api.py` /
`summarizer.py` are not under src/). Spec §6: `{title, description,
content, url, source, published_at}`. -/
structure Article where
  title : String
  description : String
  content : String
  url : String
  source : String
  published_at : String
deriving DecidableEq

/-- Modelled from the spec: the assembled per-article result
(`summarizer.py`, not under src/). Spec §4.4 step 4: `{title, source, url,
summary, sentiment, published_at}`. -/
structure SummaryResult where
  title : String
  source : String
  url : String
  summary : String
  sentiment : String
  published_at : String
deriving DecidableEq

/-- Modelled from the spec: the pipeline's external collaborators
(`llm_providers.py` / `news_api.py`, not under src/). Spec §6: each LLM
vendor maps a prompt derived from the article to a free-text completion,
and each call's token usage feeds the Cost Tracker. The two vendors'
responses, token counts, models and rates are abstract parameters. -/
structure PipelineEnv where
  summarizeWith : Article → String
  sentimentWith : Article → String
  openaiModel : String
  anthropicModel : String
  summaryInTokens : Article → Nat
  summaryOutTokens : Article → Nat
  sentimentInTokens : Article → Nat
  sentimentOutTokens : Article → Nat
  openaiInRate : ℚ
  openaiOutRate : ℚ
  anthropicInRate : ℚ
  anthropicOutRate : ℚ

/-- Modelled from the spec: the mutable state a `NewsSummarizer` instance
owns (`summarizer.py`, not under src/). Spec §3 ownership: one cache, one
cost tracker, one article store; the two per-vendor call counters record
how many LLM calls were issued. -/
structure PipelineState where
  cache : ResponseCache SummaryResult
  store : Dict SummaryResult
  tracker : CostTracker
  openai_calls : Nat
  anthropic_calls : Nat

/-- Modelled from the spec: `NewsSummarizer.summarize_article`
(`summarizer.py`, not under src/). Spec §4.4 state machine: cache lookup;
on a hit return the cached result verbatim with no LLM call and no cost;
on a miss call the summarization vendor and the sentiment vendor, track
the cost of both calls, assemble the result, and write it through to the
cache and the article store. -/
def NewsSummarizer.summarize_article (env : PipelineEnv) (st : PipelineState)
    (a : Article) : SummaryResult × PipelineState :=
  match st.cache.get a.url with
  | (some r, c') => (r, { st with cache := c' })
  | (none, c') =>
      let summary := env.summarizeWith a
      let t1 := (st.tracker.track_request "openai" env.openaiModel
        (env.summaryInTokens a) (env.summaryOutTokens a)
        env.openaiInRate env.openaiOutRate).2
      let sentiment := env.sentimentWith a
      let t2 := (t1.track_request "anthropic" env.anthropicModel
        (env.sentimentInTokens a) (env.sentimentOutTokens a)
        env.anthropicInRate env.anthropicOutRate).2
      let r : SummaryResult :=
        ⟨a.title, a.source, a.url, summary, sentiment, a.published_at⟩
      (r, { cache := c'.set a.url r, store := st.store.insert a.url r,
            tracker := t2, openai_calls := st.openai_calls + 1,
            anthropic_calls := st.anthropic_calls + 1 })

theorem ResponseCache.get_none_eq {α : Type} (c : ResponseCache α) (url : String)
    (h : c.cache.lookup url = none) :
    c.get url =
      (none, { c with stats := { c.stats with misses := c.stats.misses + 1 } }) := by
  simp [ResponseCache.get, h]

theorem ResponseCache.set_get_self {α : Type} (c : ResponseCache α) (url : String)
    (r : α) :
    (c.set url r).get url =
      (some r, { c.set url r with
        stats := { (c.set url r).stats with hits := (c.set url r).stats.hits + 1 } }) := by
  simp [ResponseCache.get, ResponseCache.set, Dict.lookup_insert_self]

/-- C6: processing an article whose URL is not yet cached issues one call
to each LLM vendor; processing the same article again returns a result
identical to the first, issues no further LLM call on either vendor, and
leaves the cost ledger untouched. -/
theorem pipeline_processes_url_once (env : PipelineEnv) (st : PipelineState)
    (a : Article) (h : st.cache.cache.lookup a.url = none) :
    (NewsSummarizer.summarize_article env
        (NewsSummarizer.summarize_article env st a).2 a).1 =
      (NewsSummarizer.summarize_article env st a).1 ∧
    (NewsSummarizer.summarize_article env st a).2.openai_calls =
      st.openai_calls + 1 ∧
    (NewsSummarizer.summarize_article env st a).2.anthropic_calls =
      st.anthropic_calls + 1 ∧
    (NewsSummarizer.summarize_article env
        (NewsSummarizer.summarize_article env st a).2 a).2.openai_calls =
      (NewsSummarizer.summarize_article env st a).2.openai_calls ∧
    (NewsSummarizer.summarize_article env
        (NewsSummarizer.summarize_article env st a).2 a).2.anthropic_calls =
      (NewsSummarizer.summarize_article env st a).2.anthropic_calls ∧
    (NewsSummarizer.summarize_article env
        (NewsSummarizer.summarize_article env st a).2 a).2.tracker =
      (NewsSummarizer.summarize_article env st a).2.tracker := by
  refine ⟨?_, ?_, ?_, ?_, ?_, ?_⟩ <;>
    simp [NewsSummarizer.summarize_article, ResponseCache.get_none_eq _ _ h,
      ResponseCache.set_get_self]

/-- Concrete pipeline environment used by the C6 witness. -/
def pipelineEnvExample : PipelineEnv :=
  ⟨fun _ => "Test summary", fun _ => "Positive sentiment",
   "gpt-4o-mini", "claude-sonnet", fun _ => 100, fun _ => 50,
   fun _ => 80, fun _ => 10, 1, 2, 3, 4⟩

/-- Concrete pipeline state used by the C6 witness: empty cache, empty
store, fresh ledger. -/
def pipelineStateExample : PipelineState :=
  ⟨ResponseCache.init none, Dict.empty, ⟨[], 0⟩, 0, 0⟩

/-- Concrete article used by the C6 witness. -/
def articleExample : Article :=
  ⟨"Test Article", "Test description", "Test content",
   "https://example.com/cached", "Test Source", "2026-01-19"⟩

/-- Witness for C6 at the concrete article and empty-cache state. -/
theorem pipeline_processes_url_once_witness :
    (NewsSummarizer.summarize_article pipelineEnvExample
        (NewsSummarizer.summarize_article pipelineEnvExample
          pipelineStateExample articleExample).2 articleExample).1 =
      (NewsSummarizer.summarize_article pipelineEnvExample
        pipelineStateExample articleExample).1 ∧
    (NewsSummarizer.summarize_article pipelineEnvExample
        pipelineStateExample articleExample).2.openai_calls =
      pipelineStateExample.openai_calls + 1 ∧
    (NewsSummarizer.summarize_article pipelineEnvExample
        pipelineStateExample articleExample).2.anthropic_calls =
      pipelineStateExample.anthropic_calls + 1 ∧
    (NewsSummarizer.summarize_article pipelineEnvExample
        (NewsSummarizer.summarize_article pipelineEnvExample
          pipelineStateExample articleExample).2 articleExample).2.openai_calls =
      (NewsSummarizer.summarize_article pipelineEnvExample
        pipelineStateExample articleExample).2.openai_calls ∧
    (NewsSummarizer.summarize_article pipelineEnvExample
        (NewsSummarizer.summarize_article pipelineEnvExample
          pipelineStateExample articleExample).2 articleExample).2.anthropic_calls =
      (NewsSummarizer.summarize_article pipelineEnvExample
        pipelineStateExample articleExample).2.anthropic_calls ∧
    (NewsSummarizer.summarize_article pipelineEnvExample
        (NewsSummarizer.summarize_article pipelineEnvExample
          pipelineStateExample articleExample).2 articleExample).2.tracker =
      (NewsSummarizer.summarize_article pipelineEnvExample
        pipelineStateExample articleExample).2.tracker :=
  pipeline_processes_url_once pipelineEnvExample pipelineStateExample
    articleExample rfl

/-- The `result` dict `ArticleDatabase.save_article` consumes
(src/database.py lines 32-47): `published_at` is optional
(`result.get("published_at")`). -/
structure ArticleInput where
  title : String
  source : String
  url : String
  summary : String
  sentiment : String
  published_at : Option String
deriving DecidableEq

/-- One row of the `articles` table (src/database.py lines 16-30):
`id INTEGER PRIMARY KEY AUTOINCREMENT`, `url TEXT UNIQUE`, `processed_at`
set server-side on write. -/
structure ArticleRow where
  id : Nat
  title : String
  source : String
  url : String
  summary : String
  sentiment : String
  published_at : Option String
  processed_at : String
deriving DecidableEq

/-- State of the SQLite `articles` table (src/database.py): its rows in
rowid order, plus the next AUTOINCREMENT id. -/
structure ArticleDatabase where
  rows : List ArticleRow
  next_id : Nat
deriving DecidableEq

/-- A freshly created database: the table `_create_table` creates is
empty, and SQLite AUTOINCREMENT starts at 1. -/
def ArticleDatabase.emptyDb : ArticleDatabase := ⟨[], 1⟩

/-- Python `ArticleDatabase.save_article` (src/database.py lines 32-47):
`INSERT OR REPLACE` keyed on the UNIQUE `url` column deletes any
conflicting row and inserts a fresh row with a fresh AUTOINCREMENT id and
a server-side `processed_at` timestamp (passed here as `now`). -/
def ArticleDatabase.save_article (db : ArticleDatabase) (result : ArticleInput)
    (now : String) : ArticleDatabase :=
  ⟨db.rows.filter (fun r => r.url != result.url) ++
    [⟨db.next_id, result.title, result.source, result.url, result.summary,
      result.sentiment, result.published_at, now⟩],
   db.next_id + 1⟩

/-- Python `ArticleDatabase.save_articles` (src/database.py lines 49-68):
`executemany` performs the same `INSERT OR REPLACE` per row, all sharing
one timestamp. -/
def ArticleDatabase.save_articles (db : ArticleDatabase)
    (results : List ArticleInput) (now : String) : ArticleDatabase :=
  results.foldl (fun db r => db.save_article r now) db

/-- Python `ArticleDatabase.get_article` (src/database.py lines 70-75):
the single row matching the URL, or `None`. -/
def ArticleDatabase.get_article (db : ArticleDatabase) (url : String) :
    Option ArticleRow :=
  db.rows.find? (fun r => r.url == url)

/-- Python `ArticleDatabase.count` (src/database.py lines 93-95):
`SELECT COUNT(*)`. -/
def ArticleDatabase.count (db : ArticleDatabase) : Nat := db.rows.length

/-- One write operation against the article store. -/
inductive DbOp where
  | save (result : ArticleInput) (now : String)
  | saveMany (results : List ArticleInput) (now : String)

/-- Apply one write operation. -/
def ArticleDatabase.runDbOp (db : ArticleDatabase) : DbOp → ArticleDatabase
  | DbOp.save result now => db.save_article result now
  | DbOp.saveMany results now => db.save_articles results now

/-- Apply a sequence of write operations in order. -/
def ArticleDatabase.runDbOps (db : ArticleDatabase) (ops : List DbOp) :
    ArticleDatabase :=
  ops.foldl ArticleDatabase.runDbOp db

/-- The table invariant the UNIQUE column enforces: pairwise distinct URLs. -/
def urlsDistinct (db : ArticleDatabase) : Prop :=
  db.rows.Pairwise (fun a b => a.url ≠ b.url)

theorem ArticleDatabase.save_article_distinct (db : ArticleDatabase)
    (input : ArticleInput) (now : String) (h : urlsDistinct db) :
    urlsDistinct (db.save_article input now) := by
  unfold urlsDistinct ArticleDatabase.save_article at *
  rw [List.pairwise_append]
  refine ⟨List.Pairwise.sublist (List.filter_sublist _) h, List.pairwise_singleton _ _, ?_⟩
  intro a ha b hb
  have := (List.mem_filter.mp ha).2
  simp only [bne_iff_ne, ne_eq] at this
  simp only [List.mem_singleton] at hb
  subst hb
  exact this

theorem ArticleDatabase.save_articles_distinct (db : ArticleDatabase)
    (results : List ArticleInput) (now : String) (h : urlsDistinct db) :
    urlsDistinct (db.save_articles results now) := by
  unfold ArticleDatabase.save_articles
  induction results generalizing db with
  | nil => simpa using h
  | cons r rest ih =>
      simpa using ih (db.save_article r now)
        (ArticleDatabase.save_article_distinct db r now h)

theorem ArticleDatabase.runDbOps_distinct (db : ArticleDatabase) (ops : List DbOp)
    (h : urlsDistinct db) : urlsDistinct (db.runDbOps ops) := by
  induction ops generalizing db with
  | nil => simpa [ArticleDatabase.runDbOps] using h
  | cons op rest ih =>
      have hstep : urlsDistinct (db.runDbOp op) := by
        cases op with
        | save result now => exact ArticleDatabase.save_article_distinct db result now h
        | saveMany results now =>
            exact ArticleDatabase.save_articles_distinct db results now h
      simpa [ArticleDatabase.runDbOps] using ih (db.runDbOp op) hstep

theorem filter_ne_url_length (rows : List ArticleRow) (url : String)
    (hdist : rows.Pairwise (fun a b => a.url ≠ b.url))
    (hmem : ∃ r ∈ rows, r.url = url) :
    (rows.filter (fun r => r.url != url)).length + 1 = rows.length := by
  induction rows with
  | nil => simp at hmem
  | cons r rest ih =>
      by_cases hr : r.url = url
      · have hall : ∀ x ∈ rest, x.url ≠ url := by
          intro x hx
          have := (List.pairwise_cons.mp hdist).1 x hx
          rw [hr] at this
          exact fun hxu => this hxu.symm
        have : rest.filter (fun x => x.url != url) = rest := by
          apply List.filter_eq_self.mpr
          intro x hx
          simpa [bne_iff_ne] using hall x hx
        simp [List.filter_cons, hr, this]
      · have hmem' : ∃ x ∈ rest, x.url = url := by
          obtain ⟨x, hx, hxu⟩ := hmem
          rcases List.mem_cons.mp hx with rfl | hx'
          · exact absurd hxu hr
          · exact ⟨x, hx', hxu⟩
        have := ih (List.pairwise_cons.mp hdist).2 hmem'
        simp [List.filter_cons, hr]
        omega

theorem find_filter_append_new (rows : List ArticleRow) (new : ArticleRow)
    (url : String) (hnew : new.url = url) :
    ((rows.filter (fun r => r.url != url)) ++ [new]).find?
      (fun r => r.url == url) = some new := by
  induction rows with
  | nil => simp [List.find?, hnew]
  | cons r rest ih =>
      by_cases hr : r.url = url
      · simp [List.filter_cons, hr, ih]
      · have hfilter : ((r :: rest).filter (fun x => x.url != url)) =
            r :: rest.filter (fun x => x.url != url) := by
          simp [List.filter_cons, hr]
        rw [hfilter, List.cons_append, List.find?_cons_of_neg]
        · exact ih
        · simp [hr]

/-- C7: after any sequence of save operations from a fresh database the
table holds at most one row per URL; saving an input whose URL already
exists (in a table satisfying that invariant) keeps `count` unchanged and
makes the lookup for that URL return the freshly written title, summary,
sentiment and timestamp. -/
theorem db_at_most_one_row_per_url :
    (∀ ops : List DbOp, urlsDistinct (ArticleDatabase.emptyDb.runDbOps ops)) ∧
    (∀ (db : ArticleDatabase) (input : ArticleInput) (now : String),
      urlsDistinct db → (∃ r ∈ db.rows, r.url = input.url) →
      (db.save_article input now).count = db.count ∧
      (db.save_article input now).get_article input.url =
        some ⟨db.next_id, input.title, input.source, input.url, input.summary,
          input.sentiment, input.published_at, now⟩) := by
  constructor
  · intro ops
    exact ArticleDatabase.runDbOps_distinct ArticleDatabase.emptyDb ops
      (by simp [urlsDistinct, ArticleDatabase.emptyDb])
  · intro db input now hdist hmem
    constructor
    · have := filter_ne_url_length db.rows input.url hdist hmem
      simp only [ArticleDatabase.count, ArticleDatabase.save_article,
        List.length_append, List.length_singleton]
      omega
    · exact find_filter_append_new db.rows _ input.url rfl

/-- Concrete database used by the C7 witness: one stored row. -/
def dbRowExample : ArticleRow :=
  ⟨1, "Original Title", "Test Source", "https://example.com/1",
   "Test summary", "Positive", some "2026-01-19", "2026-01-19T00:00:00+00:00"⟩

/-- Concrete database used by the C7 witness. -/
def dbExample : ArticleDatabase := ⟨[dbRowExample], 2⟩

/-- Concrete replacement input used by the C7 witness: same URL, new
title, summary and sentiment. -/
def dbInputExample : ArticleInput :=
  ⟨"Updated Title", "Test Source", "https://example.com/1",
   "New summary", "Negative", some "2026-01-19"⟩

/-- Witness for C7 at the concrete one-row database: re-saving the URL
keeps the count at 1 and the lookup sees the replacement row. -/
theorem db_at_most_one_row_per_url_witness :
    (dbExample.save_article dbInputExample "2026-01-20T00:00:00+00:00").count =
      dbExample.count ∧
    (dbExample.save_article dbInputExample
        "2026-01-20T00:00:00+00:00").get_article dbInputExample.url =
      some ⟨dbExample.next_id, dbInputExample.title, dbInputExample.source,
        dbInputExample.url, dbInputExample.summary, dbInputExample.sentiment,
        dbInputExample.published_at, "2026-01-20T00:00:00+00:00"⟩ :=
  db_at_most_one_row_per_url.2 dbExample dbInputExample "2026-01-20T00:00:00+00:00"
    (by simp [urlsDistinct, dbExample]) ⟨dbRowExample, by simp [dbExample], rfl⟩

/-- SQLite's ASCII case folding: upper-case ASCII letters map to lower
case, every other character is left alone (LIKE is case-insensitive for
ASCII only). -/
def lowerChar (c : Char) : Char :=
  if 'A' ≤ c ∧ c ≤ 'Z' then Char.ofNat (c.toNat + 32) else c

/-- ASCII case folding over a character list. -/
def lowerList (l : List Char) : List Char := l.map lowerChar

/-- Matching of a `%` wildcard followed by a pattern whose matcher is `f`:
some (possibly empty) prefix of the text is swallowed and `f` accepts the
remainder. -/
def likeStar (f : List Char → Bool) : List Char → Bool
  | [] => f []
  | c :: ts => f (c :: ts) || likeStar f ts

/-- SQLite `LIKE` pattern matching (the semantics of the `title LIKE ?`
comparisons in src/database.py line 88): `%` matches any sequence, `_`
any single character, and ordinary characters compare ASCII
case-insensitively. -/
def likeMatch : List Char → List Char → Bool
  | [], t => t.isEmpty
  | p :: ps, t =>
      if p = '%' then likeStar (likeMatch ps) t
      else
        match t with
        | [] => false
        | c :: ts => (p == '_' || lowerChar p == lowerChar c) && likeMatch ps ts

/-- The pattern `f"%{keyword}%"` built by `search_articles`
(src/database.py line 86). -/
def likePattern (keyword : String) : List Char :=
  '%' :: (keyword.toList ++ ['%'])

/-- Whether a stored text satisfies `column LIKE '%keyword%'`. -/
def likeContains (keyword s : String) : Bool :=
  likeMatch (likePattern keyword) s.toList

/-- Stable insertion step for `ORDER BY processed_at DESC`: a row moves
ahead only of rows with strictly older timestamps. -/
def insertByProcessedDesc (r : ArticleRow) : List ArticleRow → List ArticleRow
  | [] => [r]
  | x :: xs =>
      if x.processed_at < r.processed_at then r :: x :: xs
      else x :: insertByProcessedDesc r xs

/-- Sorting by `processed_at` descending (`ORDER BY processed_at DESC`,
on TEXT columns byte-lexicographic). -/
def sortByProcessedDesc : List ArticleRow → List ArticleRow
  | [] => []
  | x :: xs => insertByProcessedDesc x (sortByProcessedDesc xs)

/-- Python `ArticleDatabase.get_all_articles` (src/database.py lines
77-82): all rows ordered by `processed_at` descending. -/
def ArticleDatabase.get_all_articles (db : ArticleDatabase) : List ArticleRow :=
  sortByProcessedDesc db.rows

/-- Python `ArticleDatabase.search_articles` (src/database.py lines
84-91): rows whose title or summary matches `LIKE '%keyword%'`, ordered
by `processed_at` descending. -/
def ArticleDatabase.search_articles (db : ArticleDatabase) (keyword : String) :
    List ArticleRow :=
  sortByProcessedDesc (db.rows.filter
    (fun r => likeContains keyword r.title || likeContains keyword r.summary))

theorem likeStar_iff (f : List Char → Bool) (t : List Char) :
    likeStar f t = true ↔ ∃ t₁ t₂, t = t₁ ++ t₂ ∧ f t₂ = true := by
  induction t with
  | nil =>
      simp only [likeStar]
      constructor
      · intro h
        exact ⟨[], [], rfl, h⟩
      · rintro ⟨t₁, t₂, heq, hf⟩
        obtain ⟨rfl, rfl⟩ := List.append_eq_nil.mp heq.symm
        exact hf
  | cons c ts ih =>
      simp only [likeStar, Bool.or_eq_true, ih]
      constructor
      · rintro (h | ⟨t₁, t₂, rfl, hf⟩)
        · exact ⟨[], c :: ts, rfl, h⟩
        · exact ⟨c :: t₁, t₂, rfl, hf⟩
      · rintro ⟨t₁, t₂, heq, hf⟩
        cases t₁ with
        | nil =>
            simp only [List.nil_append] at heq
            subst heq
            exact Or.inl hf
        | cons d t₁' =>
            rw [List.cons_append] at heq
            injection heq with h1 h2
            subst h1
            subst h2
            exact Or.inr ⟨t₁', t₂, rfl, hf⟩

theorem likeMatch_plain_star (kw : List Char)
    (hw : ∀ c ∈ kw, c ≠ '%' ∧ c ≠ '_') (t : List Char) :
    likeMatch (kw ++ ['%']) t = true ↔
      ∃ u v, t = u ++ v ∧ lowerList u = lowerList kw := by
  induction kw generalizing t with
  | nil =>
      rw [List.nil_append]
      constructor
      · intro _
        exact ⟨[], t, rfl, rfl⟩
      · intro _
        simp [likeMatch, likeStar_iff]
  | cons c cs ih =>
      have hc := hw c (by simp)
      have hcs : ∀ x ∈ cs, x ≠ '%' ∧ x ≠ '_' := fun x hx => hw x (by simp [hx])
      rw [List.cons_append]
      simp only [likeMatch, if_neg hc.1]
      cases t with
      | nil =>
          simp only [Bool.false_eq_true, false_iff]
          rintro ⟨u, v, heq, hu⟩
          obtain ⟨rfl, rfl⟩ := List.append_eq_nil.mp heq.symm
          simp [lowerList] at hu
      | cons d ds =>
          simp only [Bool.and_eq_true, Bool.or_eq_true, beq_iff_eq, ih hcs]
          constructor
          · rintro ⟨hcd | hcd, u, v, rfl, hu⟩
            · exact absurd hcd hc.2
            · refine ⟨d :: u, v, rfl, ?_⟩
              simp only [lowerList, List.map_cons]
              exact List.cons_eq_cons.mpr ⟨hcd.symm, hu⟩
          · rintro ⟨u, v, heq, hu⟩
            cases u with
            | nil => simp [lowerList] at hu
            | cons e u' =>
                rw [List.cons_append] at heq
                have hd : d = e := (List.cons.injEq _ _ _ _ ▸ heq).1
                have hds : ds = u' ++ v := (List.cons.injEq _ _ _ _ ▸ heq).2
                simp only [lowerList, List.map_cons, List.cons.injEq] at hu
                subst hd
                exact ⟨Or.inr hu.1.symm, u', v, hds, hu.2⟩

theorem likeMatch_pattern_iff (kw t : List Char)
    (hw : ∀ c ∈ kw, c ≠ '%' ∧ c ≠ '_') :
    likeMatch ('%' :: (kw ++ ['%'])) t = true ↔
      lowerList kw <:+: lowerList t := by
  rw [show likeMatch ('%' :: (kw ++ ['%'])) t =
    likeStar (likeMatch (kw ++ ['%'])) t from rfl, likeStar_iff]
  constructor
  · rintro ⟨t₁, t₂, rfl, h⟩
    obtain ⟨u, v, rfl, hu⟩ := (likeMatch_plain_star kw hw t₂).mp h
    refine ⟨lowerList t₁, lowerList v, ?_⟩
    rw [show lowerList (t₁ ++ (u ++ v)) =
      lowerList t₁ ++ lowerList u ++ lowerList v by simp [lowerList], hu]
  · rintro ⟨s, s', hss⟩
    rw [List.append_assoc] at hss
    obtain ⟨t₁, rest, rfl, -, hrest⟩ :=
      List.map_eq_append_iff.mp (show List.map lowerChar _ = s ++ (lowerList kw ++ s')
        from hss.symm)
    obtain ⟨u, v, rfl, hu, -⟩ := List.map_eq_append_iff.mp hrest
    exact ⟨t₁, u ++ v, rfl,
      (likeMatch_plain_star kw hw (u ++ v)).mpr ⟨u, v, rfl, hu⟩⟩

theorem likeContains_iff (keyword s : String)
    (hw : ∀ c ∈ keyword.toList, c ≠ '%' ∧ c ≠ '_') :
    likeContains keyword s = true ↔
      lowerList keyword.toList <:+: lowerList s.toList :=
  likeMatch_pattern_iff keyword.toList s.toList hw

theorem insertByProcessedDesc_perm (r : ArticleRow) (l : List ArticleRow) :
    List.Perm (insertByProcessedDesc r l) (r :: l) := by
  induction l with
  | nil => exact List.Perm.refl _
  | cons x xs ih =>
      unfold insertByProcessedDesc
      by_cases h : x.processed_at < r.processed_at
      · rw [if_pos h]
      · rw [if_neg h]
        exact (ih.cons x).trans (List.Perm.swap _ _ _)

theorem sortByProcessedDesc_perm (l : List ArticleRow) :
    List.Perm (sortByProcessedDesc l) l := by
  induction l with
  | nil => exact List.Perm.refl _
  | cons x xs ih =>
      exact (insertByProcessedDesc_perm x (sortByProcessedDesc xs)).trans (ih.cons x)

theorem insertByProcessedDesc_pairwise (r : ArticleRow) (l : List ArticleRow)
    (h : l.Pairwise (fun a b => b.processed_at ≤ a.processed_at)) :
    (insertByProcessedDesc r l).Pairwise
      (fun a b => b.processed_at ≤ a.processed_at) := by
  induction l with
  | nil => simp [insertByProcessedDesc]
  | cons x xs ih =>
      obtain ⟨hx, hxs⟩ := List.pairwise_cons.mp h
      unfold insertByProcessedDesc
      by_cases hlt : x.processed_at < r.processed_at
      · rw [if_pos hlt]
        refine List.pairwise_cons.mpr ⟨?_, h⟩
        intro y hy
        rcases List.mem_cons.mp hy with rfl | hy'
        · exact le_of_lt hlt
        · exact le_trans (hx y hy') (le_of_lt hlt)
      · rw [if_neg hlt]
        refine List.pairwise_cons.mpr ⟨?_, ih hxs⟩
        intro y hy
        have hy' := (insertByProcessedDesc_perm r xs).mem_iff.mp hy
        rcases List.mem_cons.mp hy' with rfl | hy''
        · exact le_of_not_lt hlt
        · exact hx y hy''

theorem sortByProcessedDesc_pairwise (l : List ArticleRow) :
    (sortByProcessedDesc l).Pairwise
      (fun a b => b.processed_at ≤ a.processed_at) := by
  induction l with
  | nil => simp [sortByProcessedDesc]
  | cons x xs ih => exact insertByProcessedDesc_pairwise x _ ih

/-- C8 (amended): for keywords free of the SQL LIKE wildcards `%` and `_`,
`search_articles keyword` returns exactly the rows whose title or summary
contains the keyword as an ASCII-case-insensitive substring, ordered by
`processed_at` most recent first, and in particular is empty when no row
matches. -/
theorem search_articles_characterization (db : ArticleDatabase) (keyword : String)
    (hw : ∀ c ∈ keyword.toList, c ≠ '%' ∧ c ≠ '_') :
    (∀ r : ArticleRow, r ∈ db.search_articles keyword ↔
      r ∈ db.rows ∧ (lowerList keyword.toList <:+: lowerList r.title.toList ∨
        lowerList keyword.toList <:+: lowerList r.summary.toList)) ∧
    (db.search_articles keyword).Pairwise
      (fun a b => b.processed_at ≤ a.processed_at) ∧
    ((∀ r ∈ db.rows,
        ¬ (lowerList keyword.toList <:+: lowerList r.title.toList) ∧
        ¬ (lowerList keyword.toList <:+: lowerList r.summary.toList)) →
      db.search_articles keyword = []) := by
  refine ⟨?_, sortByProcessedDesc_pairwise _, ?_⟩
  · intro r
    unfold ArticleDatabase.search_articles
    rw [(sortByProcessedDesc_perm _).mem_iff, List.mem_filter,
      Bool.or_eq_true, likeContains_iff _ _ hw, likeContains_iff _ _ hw]
  · intro hnone
    unfold ArticleDatabase.search_articles
    have : db.rows.filter
        (fun r => likeContains keyword r.title || likeContains keyword r.summary) = [] := by
      rw [List.filter_eq_nil_iff]
      intro r hr
      have h := hnone r hr
      rw [Bool.not_eq_true, Bool.or_eq_false_iff]
      constructor
      · exact (Bool.not_eq_true _).mp fun hc => h.1 ((likeContains_iff _ _ hw).mp hc)
      · exact (Bool.not_eq_true _).mp fun hc => h.2 ((likeContains_iff _ _ hw).mp hc)
    rw [this]
    rfl

/-- Concrete rows for the C8 witness and counterexample. -/
def searchRowPy : ArticleRow :=
  ⟨1, "Python Release", "Test Source", "https://example.com/1",
   "Test summary", "Positive", some "2026-01-19", "2026-01-19T00:00:00+00:00"⟩

/-- Second concrete row, with a more recent processed timestamp. -/
def searchRowJava : ArticleRow :=
  ⟨2, "Java Update", "Test Source", "https://example.com/2",
   "Test summary", "Positive", some "2026-01-19", "2026-01-20T00:00:00+00:00"⟩

/-- Concrete two-row database for the C8 witness and counterexample. -/
def searchDbExample : ArticleDatabase := ⟨[searchRowPy, searchRowJava], 3⟩

/-- Witness for C8 at a concrete database and the wildcard-free keyword
"Python". -/
theorem search_articles_characterization_witness :
    (searchRowPy ∈ searchDbExample.search_articles "Python" ↔
      searchRowPy ∈ searchDbExample.rows ∧
        (lowerList "Python".toList <:+: lowerList searchRowPy.title.toList ∨
         lowerList "Python".toList <:+: lowerList searchRowPy.summary.toList)) ∧
    (searchDbExample.search_articles "Python").Pairwise
      (fun a b => b.processed_at ≤ a.processed_at) :=
  ⟨(search_articles_characterization searchDbExample "Python" (by decide)).1
      searchRowPy,
   (search_articles_characterization searchDbExample "Python" (by decide)).2.1⟩

/-- Counterexample to C8 as frozen: SQLite `LIKE` is ASCII
case-insensitive, so searching for "python" returns the row titled
"Python Release" even though neither its title nor its summary contains
"python" as a (case-sensitive) substring. -/
theorem search_articles_case_counterexample :
    (searchDbExample.search_articles "python").map (fun r => r.id) = [1] ∧
    ¬ ("python".toList <:+: "Python Release".toList) ∧
    ¬ ("python".toList <:+: "Test summary".toList) :=
  ⟨by decide, by decide, by decide⟩
